import Mathlib

/-!
Shallow embedding of `magenta/js/music_rnn/src/model.ts` (class `MelodyRnn`)
and verification of its specification.

Modelling conventions:
* Tensor entries are rationals.  A 1-D tensor is a `List ℚ`; a 2-D weight
  matrix is stored as its list of COLUMNS (`List (List ℚ)`), so that the
  row-vector-times-matrix product maps each column to a dot product with
  the row vector.
* The elementwise numeric primitives of the `deeplearn` library (sigmoid,
  tanh) and its multinomial sampler are external library operations, not
  code of this repository; the embedding is parametric in them, bundled in
  `DlPrims`.  The structural primitives `basicLSTMCell` and `multiRNNCell`
  are translated from the documented deeplearn semantics that the
  specification states.
* deeplearn tensors are heap objects that can be released with `dispose`;
  the embedding gives them identities in a `Heap`, where `none` marks a
  released buffer.  Operations allocate fresh tensors by appending to the
  heap; reading a released tensor fails.
* The asynchronous parts (`await`) are sequentialized, as the code awaits
  every suspension point in order.
-/

namespace MusicRnn

abbrev Vec := List ℚ
abbrev Mat := List (List ℚ)

/-- Errors surfaced by a `continueSequence` call. -/
inductive MError where
  | conversionError
  | useAfterDisposeError
  | shapeError
deriving DecidableEq

/-- JavaScript runtime errors (for `Object.keys` applied to `undefined`). -/
inductive JsError where
  | typeError
deriving DecidableEq

/-- A tensor value held in the heap: rank 1 or rank 2. -/
inductive TVal where
  | vec : Vec → TVal
  | mat : Mat → TVal

abbrev TensorId := ℕ

/-- The deeplearn tensor heap: `none` marks a disposed (released) buffer. -/
abbrev Heap := List (Option TVal)

/-- Read a rank-1 tensor out of the heap; fails on a released buffer. -/
def readVec (heap : Heap) (id : TensorId) : Except MError Vec :=
  match heap.getD id none with
  | some (TVal.vec v) => Except.ok v
  | some (TVal.mat _) => Except.error MError.shapeError
  | none => Except.error MError.useAfterDisposeError

/-- Read a rank-2 tensor out of the heap; fails on a released buffer. -/
def readMat (heap : Heap) (id : TensorId) : Except MError Mat :=
  match heap.getD id none with
  | some (TVal.mat m) => Except.ok m
  | some (TVal.vec _) => Except.error MError.shapeError
  | none => Except.error MError.useAfterDisposeError

/-- Dot product of two vectors (truncating to the shorter one). -/
def dotProd (x y : Vec) : ℚ := (List.zipWith (fun a b => a * b) x y).sum

/-- Row vector times matrix (`x.matMul(W)` for a `[1, n]` row):
one dot product per stored column. -/
def matMulRow (x : Vec) (w : Mat) : Vec := w.map (fun col => dotProd x col)

/-- Elementwise addition (`a.add(b)`). -/
def addVec (a b : Vec) : Vec := List.zipWith (fun u v => u + v) a b

/-- Elementwise multiplication (`a.mul(b)`). -/
def mulVec (a b : Vec) : Vec := List.zipWith (fun u v => u * v) a b

/-- `dl.oneHot(idx, n).toFloat()`: a row with a 1 at `idx`, 0 elsewhere. -/
def oneHot (idx n : ℕ) : Vec := (List.range n).map (fun j => if j = idx then 1 else 0)

/-- Index tracking for `argmax`: scan the tail keeping the first maximum. -/
def argmaxAux : List ℚ → ℕ → ℚ → ℕ → ℕ
  | [], best, _, _ => best
  | x :: xs, best, bv, idx =>
      if bv < x then argmaxAux xs idx x (idx + 1) else argmaxAux xs best bv (idx + 1)

/-- `logits.argMax(1)` for a `[1, n]` row: index of the first maximum entry. -/
def argmax : Vec → ℕ
  | [] => 0
  | x :: xs => argmaxAux xs 0 x 1

/-- The numeric primitives the code takes from the deeplearn library:
elementwise `sigmoid` and `tanh`, and `dl.multinomial`, which draws one
outcome index from the categorical distribution induced by a logits row.
The embedding is parametric in them; the sampler additionally receives the
pseudo-random draw for the step. -/
structure DlPrims where
  sigmoid : ℚ → ℚ
  tanh : ℚ → ℚ
  multinomial : Vec → ℕ → ℕ

/-- Modelled from the spec (§4.2) and the deeplearn contract of
`dl.basicLSTMCell(forgetBias, kernel, bias, data, c, h)`, which is library
code, not code of this repository: concatenate `data` and `h`, apply the
affine map, split the gate row into quarters `(i, j, f, o)`, and form
`newC = c ⊙ sigmoid(f + forgetBias) + sigmoid(i) ⊙ tanh(j)`,
`newH = tanh(newC) ⊙ sigmoid(o)`. -/
def basicLSTMCell (P : DlPrims) (forgetBias : ℚ) (kernel : Mat) (bias : Vec)
    (data c h : Vec) : Vec × Vec :=
  let combined := data ++ h
  let gates := addVec (matMulRow combined kernel) bias
  let n := gates.length / 4
  let gi := gates.take n
  let gj := (gates.drop n).take n
  let gf := (gates.drop (2 * n)).take n
  let go := (gates.drop (3 * n)).take n
  let newC := addVec (mulVec c (gf.map (fun v => P.sigmoid (v + forgetBias))))
                     (mulVec (gi.map P.sigmoid) (gj.map P.tanh))
  let newH := mulVec (newC.map P.tanh) (go.map P.sigmoid)
  (newC, newH)

/-- Modelled from the spec (§4.2) and the deeplearn contract of
`dl.multiRNNCell(cells, data, c, h)`, which is library code, not code of
this repository: each cell consumes the previous cell output as its input
together with its own state pair, and both state lists are returned. -/
def multiRNNCell : List (Vec → Vec → Vec → Vec × Vec) → Vec → List Vec → List Vec →
    List Vec × List Vec
  | [], _, _, _ => ([], [])
  | cell :: cells, data, c, h =>
      let res := cell data (c.headD []) (h.headD [])
      let rest := multiRNNCell cells res.2 c.tail h.tail
      (res.1 :: rest.1, res.2 :: rest.2)

/-- Modelled from the spec (§6): a melody at the `SequenceConverter`
boundary, abstracted to its quantization flag, its declared quantized step
count, and its per-step melody event indices.  The converter itself lives
in `magenta/js/core`, outside the provided sources. -/
structure NoteSequence where
  quantized : Bool
  totalQuantizedSteps : ℕ
  events : List ℕ

/-- A 2-D input tensor with its row list and its column count (`shape[1]`). -/
structure Tensor2 where
  rows : List Vec
  cols : ℕ

/-- Modelled from the spec (§6, §7): `MelodyConverter` encoding,
`encode(melody, totalSteps, minNote, maxNote) -> tensor[steps][vocabSize]`
with `vocabSize = maxNote - minNote + 2`, failing with `ConversionError`
when the melody is not quantized.  The converter is `magenta/js/core`
code, not under the provided sources. -/
def MelodyConverter.toTensor (numSteps minNote maxNote : ℕ) (seq : NoteSequence) :
    Except MError Tensor2 :=
  if seq.quantized then
    Except.ok ⟨(seq.events.take numSteps).map (fun e => oneHot e (maxNote - minNote + 2)),
               maxNote - minNote + 2⟩
  else
    Except.error MError.conversionError

def DEFAULT_MIN_NOTE : ℕ := 48
def DEFAULT_MAX_NOTE : ℕ := 84

/-- The converter construction performed by `continueSequence` (model.ts
lines 89-91): `new MelodyConverter(sequence.totalQuantizedSteps,
DEFAULT_MIN_NOTE, DEFAULT_MAX_NOTE)` followed by `toTensor(sequence)`. -/
def modelConverter (seq : NoteSequence) : Except MError Tensor2 :=
  MelodyConverter.toTensor seq.totalQuantizedSteps DEFAULT_MIN_NOTE DEFAULT_MAX_NOTE seq

/-- The checkpoint variable names read by the model (model.ts lines 76-82):
`RNN/MultiRNNCell/Cell0/BasicLSTMCell/Linear/Matrix` and `.../Bias`, the
same for `Cell1`, and `fully_connected/weights` / `fully_connected/biases`. -/
inductive VarName where
  | cell0Matrix
  | cell0Bias
  | cell1Matrix
  | cell1Bias
  | fcWeights
  | fcBiases

/-- The `MelodyRnn` instance state: the `rawVars` field (`undefined` until
assigned, modelled as `Option`) and the six parameter tensor handles. -/
structure Model where
  rawVars : Option (List TensorId)
  lstmKernel1 : TensorId
  lstmBias1 : TensorId
  lstmKernel2 : TensorId
  lstmBias2 : TensorId
  lstmFcB : TensorId
  lstmFcW : TensorId

/-- A freshly constructed `MelodyRnn`: the constructor only stores the
checkpoint URL, so every tensor field, `rawVars` included, is still
`undefined`; the handle fields are modelled with a dummy id. -/
def mkMelodyRnn : Model :=
  { rawVars := none, lstmKernel1 := 0, lstmBias1 := 0, lstmKernel2 := 0,
    lstmBias2 := 0, lstmFcB := 0, lstmFcW := 0 }

/-- `MelodyRnn` checkpoint loading (model.ts lines 70-83): the six weight
fields are assigned from the loaded variable map; no other field is
assigned — in particular `rawVars` is left as it was. -/
def loadVars (vars : VarName → TensorId) (m : Model) : Model :=
  { m with
    lstmKernel1 := vars VarName.cell0Matrix
    lstmBias1 := vars VarName.cell0Bias
    lstmKernel2 := vars VarName.cell1Matrix
    lstmBias2 := vars VarName.cell1Bias
    lstmFcB := vars VarName.fcBiases
    lstmFcW := vars VarName.fcWeights }

/-- Release one heap buffer (`tensor.dispose()`). -/
def disposeId (heap : Heap) (id : TensorId) : Heap := heap.set id none

/-- `MelodyRnn.dispose` (model.ts lines 62-64):
`Object.keys(this.rawVars).forEach(name => this.rawVars[name].dispose())`.
When `rawVars` is `undefined`, `Object.keys(undefined)` throws a
`TypeError`; otherwise every registered tensor is released. -/
def dispose (heap : Heap) (m : Model) : Except JsError Heap :=
  match m.rawVars with
  | none => Except.error JsError.typeError
  | some ids => Except.ok (ids.foldl disposeId heap)

/-- The parameter tensor values once read out of the heap. -/
structure Weights where
  lstmKernel1 : Mat
  lstmBias1 : Vec
  lstmKernel2 : Mat
  lstmBias2 : Vec
  lstmFcB : Vec
  lstmFcW : Mat

/-- Read the six parameter tensors used by `continueSequence`.  The values
are immutable once read; the code re-reads the same buffers each step. -/
def readParams (heap : Heap) (m : Model) : Except MError Weights := do
  let k1 ← readMat heap m.lstmKernel1
  let b1 ← readVec heap m.lstmBias1
  let k2 ← readMat heap m.lstmKernel2
  let b2 ← readVec heap m.lstmBias2
  let fcB ← readVec heap m.lstmFcB
  let fcW ← readMat heap m.lstmFcW
  pure ⟨k1, b1, k2, b2, fcB, fcW⟩

/-- `lstm1` (model.ts lines 107-109): `dl.basicLSTMCell(forgetBias,
this.lstmKernel1, this.lstmBias1, data, c, h)` with `forgetBias =
dl.scalar(1.0)`. -/
def lstm1 (P : DlPrims) (W : Weights) (data c h : Vec) : Vec × Vec :=
  basicLSTMCell P 1 W.lstmKernel1 W.lstmBias1 data c h

/-- `lstm2` (model.ts lines 110-112): same with the layer-2 kernel/bias. -/
def lstm2 (P : DlPrims) (W : Weights) (data c h : Vec) : Vec × Vec :=
  basicLSTMCell P 1 W.lstmKernel2 W.lstmBias2 data c h

/-- The per-call generation loop state: the two per-layer cell and hidden
state lists, the collective sample list, and the tensor heap. -/
structure LoopState where
  c : List Vec
  h : List Vec
  samples : List ℕ
  heap : Heap

/-- Loop state at entry (model.ts lines 98-105): both layers start from
all-zero `[1, bias.length / 4]` state rows, no samples yet. -/
def initState (heap : Heap) (b1 b2 : Vec) : LoopState :=
  { c := [List.replicate (b1.length / 4) 0, List.replicate (b2.length / 4) 0],
    h := [List.replicate (b1.length / 4) 0, List.replicate (b2.length / 4) 0],
    samples := [], heap := heap }

/-- The logits row of a self-feeding step (model.ts line 122):
`h[1].matMul(this.lstmFcW).add(this.lstmFcB)`. -/
def logitsOf (W : Weights) (st : LoopState) : Vec :=
  addVec (matMulRow (st.h.getD 1 []) W.lstmFcW) W.lstmFcB

/-- The sampled-output selection (model.ts lines 123-126):
`temperature ? dl.multinomial(logits.div(dl.scalar(temperature)), 1) :
logits.argMax(1)`.  JavaScript truthiness makes both `undefined` and `0`
take the arg-max branch; any other number, negative values included,
takes the multinomial branch with the logits divided by it.  (`NaN`, also
falsy in JavaScript, has no rational counterpart.) -/
def sampleNext (P : DlPrims) (temperature : Option ℚ) (logits : Vec) (r : ℕ) : ℕ :=
  match temperature with
  | none => argmax logits
  | some t => if t = 0 then argmax logits else P.multinomial (logits.map (fun x => x / t)) r

/-- One iteration of the generation loop (model.ts lines 116-133), written
with the shared `multiRNNCell` call repeated in each branch of the
teacher-forcing test.  Freshly created tensors of the step (the sliced or
one-hot input, the logits, and the new state rows) are allocated at the
end of the heap. -/
def genStep (P : DlPrims) (W : Weights) (inputs : Tensor2) (temperature : Option ℚ)
    (rng : ℕ → ℕ) (st : LoopState) (i : ℕ) : LoopState :=
  if i < inputs.rows.length then
    let nextInput := inputs.rows.getD i []
    let out := multiRNNCell [lstm1 P W, lstm2 P W] nextInput st.c st.h
    { c := out.1, h := out.2, samples := st.samples,
      heap := st.heap ++ ([nextInput] ++ out.1 ++ out.2).map (fun v => some (TVal.vec v)) }
  else
    let logits := logitsOf W st
    let s := sampleNext P temperature logits (rng i)
    let nextInput := oneHot s inputs.cols
    let out := multiRNNCell [lstm1 P W, lstm2 P W] nextInput st.c st.h
    { c := out.1, h := out.2, samples := st.samples ++ [s],
      heap := st.heap ++ ([logits, nextInput] ++ out.1 ++ out.2).map (fun v => some (TVal.vec v)) }

/-- `MelodyRnn.continueSequence` (model.ts lines 85-139): encode the
melody, read the parameters, run `length + steps` loop iterations from
the zero state, and return the collected samples.  The returned heap
reflects the tensors the call allocated; a failed call performs no
generation work. -/
def continueSequence (P : DlPrims) (heap : Heap) (m : Model) (seq : NoteSequence)
    (steps : ℕ) (temperature : Option ℚ) (rng : ℕ → ℕ) :
    Except MError (List ℕ) × Heap :=
  match modelConverter seq with
  | Except.error e => (Except.error e, heap)
  | Except.ok inputs =>
    match readParams heap m with
    | Except.error e => (Except.error e, heap)
    | Except.ok W =>
      let final := (List.range (inputs.rows.length + steps)).foldl
        (genStep P W inputs temperature rng) (initState heap W.lstmBias1 W.lstmBias2)
      (Except.ok final.samples, final.heap)

/-! Concrete instantiations used to exercise the embedding on closed
inputs: identity activation functions, a modulo-based draw for the
multinomial sampler, a six-tensor heap, and small melodies. -/

def P0 : DlPrims := ⟨fun x => x, fun x => x, fun lg r => r % lg.length⟩

def rng0 : ℕ → ℕ := fun _ => 0

def rng1 : ℕ → ℕ := fun n => n + 7

/-- A quantized, empty melody. -/
def seq0 : NoteSequence := ⟨true, 0, []⟩

/-- A quantized one-step melody. -/
def seq1 : NoteSequence := ⟨true, 1, [2]⟩

/-- An unquantized melody. -/
def seqBad : NoteSequence := ⟨false, 4, [1, 2]⟩

/-- Parameter tensors at ids 0-5: empty kernel columns and zero biases for
both layers, a one-column projection with bias `[3]`. -/
def heap0 : Heap :=
  [some (TVal.mat [[], [], [], []]), some (TVal.vec [0, 0, 0, 0]),
   some (TVal.mat [[], [], [], []]), some (TVal.vec [0, 0, 0, 0]),
   some (TVal.vec [3]), some (TVal.mat [[5]])]

def vars0 : VarName → TensorId
  | VarName.cell0Matrix => 0
  | VarName.cell0Bias => 1
  | VarName.cell1Matrix => 2
  | VarName.cell1Bias => 3
  | VarName.fcBiases => 4
  | VarName.fcWeights => 5

/-- A `MelodyRnn` after construction and checkpoint loading. -/
def m0 : Model := loadVars vars0 mkMelodyRnn

/-- The parameter values stored in `heap0`, as a `Weights` record. -/
def W1 : Weights := ⟨[[], [], [], []], [0, 0, 0, 0], [[], [], [], []], [0, 0, 0, 0], [3], [[5]]⟩

/-- A heap whose projection weight and bias have the full vocabulary width
38, so that the sampled indices stay below the one-hot width. -/
def heap38 : Heap :=
  [some (TVal.mat [[], [], [], []]), some (TVal.vec [0, 0, 0, 0]),
   some (TVal.mat [[], [], [], []]), some (TVal.vec [0, 0, 0, 0]),
   some (TVal.vec (List.replicate 38 0)), some (TVal.mat (List.replicate 38 []))]

/-- The parameter values stored in `heap38`. -/
def W38 : Weights := ⟨[[], [], [], []], [0, 0, 0, 0], [[], [], [], []], [0, 0, 0, 0],
  List.replicate 38 0, List.replicate 38 []⟩

/-- Follows the wording of the specification (§4.2, steps 1-5): one gated
recurrent layer step, with the gate row split at quarters of the bias
length (the "4 × hidden_size" width the specification states). -/
def specLstmLayer (P : DlPrims) (forgetBias : ℚ) (kernel : Mat) (bias : Vec)
    (x c h : Vec) : Vec × Vec :=
  let gates := addVec (matMulRow (x ++ h) kernel) bias
  let n := bias.length / 4
  let gi := gates.take n
  let gj := (gates.drop n).take n
  let gf := (gates.drop (2 * n)).take n
  let go := (gates.drop (3 * n)).take n
  let newC := addVec (mulVec c (gf.map (fun v => P.sigmoid (v + forgetBias))))
                     (mulVec (gi.map P.sigmoid) (gj.map P.tanh))
  (newC, mulVec (newC.map P.tanh) (go.map P.sigmoid))

/-- Follows the wording of the specification (§4.2): the two-layer stack,
layer 1 on the external input frame and its own pair, layer 2 on layer 1
fresh hidden state and its own pair, both with forget bias 1.0. -/
def specTwoLayerStep (P : DlPrims) (W : Weights) (x c1 h1 c2 h2 : Vec) :
    (Vec × Vec) × (Vec × Vec) :=
  let l1 := specLstmLayer P 1 W.lstmKernel1 W.lstmBias1 x c1 h1
  let l2 := specLstmLayer P 1 W.lstmKernel2 W.lstmBias2 l1.2 c2 h2
  (l1, l2)

/-! Helper lemmas. -/

theorem argmaxAux_lt (xs : List ℚ) : ∀ (best : ℕ) (bv : ℚ) (idx : ℕ), best < idx →
    argmaxAux xs best bv idx < idx + xs.length := by
  induction xs with
  | nil =>
      intro best bv idx hb
      simpa [argmaxAux] using hb
  | cons x xs ih =>
      intro best bv idx hb
      simp only [argmaxAux, List.length_cons]
      by_cases hx : bv < x
      · simp only [hx, if_true]
        have h2 := ih idx x (idx + 1) (Nat.lt_succ_self idx)
        omega
      · simp only [hx, if_false]
        have h2 := ih best bv (idx + 1) (Nat.lt_succ_of_lt hb)
        omega

theorem argmax_lt (l : Vec) (hl : 0 < l.length) : argmax l < l.length := by
  match l with
  | [] => simp at hl
  | x :: xs =>
      have h2 := argmaxAux_lt xs 0 x 1 Nat.one_pos
      simp only [argmax, List.length_cons]
      omega

theorem sampleNext_falsy (P : DlPrims) (temperature : Option ℚ) (logits : Vec) (r : ℕ)
    (h : temperature = none ∨ temperature = some 0) :
    sampleNext P temperature logits r = argmax logits := by
  rcases h with h | h <;> subst h <;> simp [sampleNext]

theorem sampleNext_lt (P : DlPrims) (temperature : Option ℚ) (logits : Vec) (r n : ℕ)
    (hmult : ∀ (lg : Vec) (d : ℕ), 0 < lg.length → P.multinomial lg d < lg.length)
    (hlen : logits.length = n) (hn : 0 < n) :
    sampleNext P temperature logits r < n := by
  cases temperature with
  | none => simpa [sampleNext, hlen] using argmax_lt logits (hlen ▸ hn)
  | some t =>
      by_cases ht : t = 0
      · subst ht
        simpa [sampleNext, hlen] using argmax_lt logits (hlen ▸ hn)
      · have h2 := hmult (logits.map (fun x => x / t)) r
          (by simpa [List.length_map, hlen] using hn)
        simpa [sampleNext, ht, List.length_map, hlen] using h2

theorem logitsOf_length (W : Weights) (st : LoopState) :
    (logitsOf W st).length = min W.lstmFcW.length W.lstmFcB.length := by
  simp [logitsOf, addVec, List.length_zipWith, matMulRow]

theorem genStep_samples_teacher (P : DlPrims) (W : Weights) (inputs : Tensor2)
    (temperature : Option ℚ) (rng : ℕ → ℕ) (st : LoopState) (i : ℕ)
    (hi : i < inputs.rows.length) :
    (genStep P W inputs temperature rng st i).samples = st.samples := by
  simp [genStep, hi]

theorem genStep_samples_self (P : DlPrims) (W : Weights) (inputs : Tensor2)
    (temperature : Option ℚ) (rng : ℕ → ℕ) (st : LoopState) (i : ℕ)
    (hi : inputs.rows.length ≤ i) :
    (genStep P W inputs temperature rng st i).samples
      = st.samples ++ [sampleNext P temperature (logitsOf W st) (rng i)] := by
  simp [genStep, Nat.not_lt.mpr hi]

theorem genStep_heap_frame (P : DlPrims) (W : Weights) (inputs : Tensor2)
    (temperature : Option ℚ) (rng : ℕ → ℕ) (st : LoopState) (i : ℕ) :
    ∃ xs, (genStep P W inputs temperature rng st i).heap = st.heap ++ xs := by
  unfold genStep
  by_cases hi : i < inputs.rows.length
  · rw [if_pos hi]
    exact ⟨_, rfl⟩
  · rw [if_neg hi]
    exact ⟨_, rfl⟩

theorem foldl_samples_teacher (P : DlPrims) (W : Weights) (inputs : Tensor2)
    (temperature : Option ℚ) (rng : ℕ → ℕ) (l : List ℕ) (st : LoopState)
    (hl : ∀ i ∈ l, i < inputs.rows.length) :
    (l.foldl (genStep P W inputs temperature rng) st).samples = st.samples := by
  induction l generalizing st with
  | nil => rfl
  | cons i l ih =>
      simp only [List.foldl_cons]
      rw [ih _ (fun j hj => hl j (List.mem_cons_of_mem _ hj)),
        genStep_samples_teacher P W inputs temperature rng st i (hl i (List.mem_cons_self _ _))]

theorem loop_samples_length (P : DlPrims) (W : Weights) (inputs : Tensor2)
    (temperature : Option ℚ) (rng : ℕ → ℕ) (steps : ℕ) (st : LoopState) :
    ((List.range (inputs.rows.length + steps)).foldl
        (genStep P W inputs temperature rng) st).samples.length
      = st.samples.length + steps := by
  induction steps with
  | zero =>
      rw [Nat.add_zero,
        foldl_samples_teacher P W inputs temperature rng _ st (fun i hi => List.mem_range.mp hi)]
      omega
  | succ s ih =>
      rw [show inputs.rows.length + (s + 1) = (inputs.rows.length + s) + 1 by omega,
        List.range_succ, List.foldl_append]
      simp only [List.foldl_cons, List.foldl_nil]
      rw [genStep_samples_self P W inputs temperature rng _ _ (Nat.le_add_right _ _)]
      simp only [List.length_append, List.length_cons, List.length_nil, ih]
      omega

theorem foldl_heap_frame (P : DlPrims) (W : Weights) (inputs : Tensor2)
    (temperature : Option ℚ) (rng : ℕ → ℕ) (l : List ℕ) :
    ∀ st : LoopState, ∃ xs, (l.foldl (genStep P W inputs temperature rng) st).heap = st.heap ++ xs := by
  induction l with
  | nil => exact fun st => ⟨[], by simp⟩
  | cons i l ih =>
      intro st
      simp only [List.foldl_cons]
      obtain ⟨ys, hy⟩ := genStep_heap_frame P W inputs temperature rng st i
      obtain ⟨zs, hz⟩ := ih (genStep P W inputs temperature rng st i)
      exact ⟨ys ++ zs, by rw [hz, hy, List.append_assoc]⟩

/-! Claim theorems. -/

/-- C1: for every encoded melody length, every number of requested steps
and any temperature, `continueSequence` returns exactly `steps` sampled
integers — samples are appended only at loop indices at or beyond the
encoded length, so the result never has `length + steps` elements, and
for `steps = 0` it is empty. -/
theorem continueSequence_length (P : DlPrims) (heap : Heap) (m : Model) (seq : NoteSequence)
    (steps : ℕ) (temperature : Option ℚ) (rng : ℕ → ℕ) (l : List ℕ)
    (h : (continueSequence P heap m seq steps temperature rng).1 = Except.ok l) :
    l.length = steps := by
  unfold continueSequence at h
  cases hc : modelConverter seq with
  | error e => rw [hc] at h; simp at h
  | ok inputs =>
      rw [hc] at h
      cases hp : readParams heap m with
      | error e => rw [hp] at h; simp at h
      | ok W =>
          rw [hp] at h
          simp only [Except.ok.injEq] at h
          rw [← h]
          simpa [initState] using
            loop_samples_length P W inputs temperature rng steps
              (initState heap W.lstmBias1 W.lstmBias2)

/-- C1 witness: a one-step melody continued for two steps yields exactly
two samples. -/
theorem continueSequence_length_witness :
    ((continueSequence P0 heap0 m0 seq1 2 none rng0).1 = Except.ok [0, 0]) ∧
      ([0, 0] : List ℕ).length = 2 :=
  ⟨rfl, continueSequence_length P0 heap0 m0 seq1 2 none rng0 [0, 0] rfl⟩

/-- C3: at every self-feeding step (loop index at or beyond the encoded
length), an undefined temperature or a temperature of exactly 0 selects
the next index by deterministic arg-max over the logits through the
explicit branch of the ternary; the logits are not divided by the
temperature in that case. -/
theorem selfFeed_argmax_on_falsy_temperature (P : DlPrims) (W : Weights) (inputs : Tensor2)
    (temperature : Option ℚ) (rng : ℕ → ℕ) (st : LoopState) (i : ℕ)
    (hi : inputs.rows.length ≤ i) (htemp : temperature = none ∨ temperature = some 0) :
    (genStep P W inputs temperature rng st i).samples
      = st.samples ++ [argmax (logitsOf W st)] := by
  rw [genStep_samples_self P W inputs temperature rng st i hi,
    sampleNext_falsy P temperature _ _ htemp]

/-- C3 witness: a self-feeding step with temperature 0 appends the arg-max
index of the logits. -/
theorem selfFeed_argmax_on_falsy_temperature_witness :
    (Tensor2.rows ⟨[], 38⟩).length ≤ 0 ∧
      (genStep P0 ⟨[[], [], [], []], [0, 0, 0, 0], [[], [], [], []], [0, 0, 0, 0], [3], [[5]]⟩
          ⟨[], 38⟩ (some 0) rng0 (initState heap0 [0, 0, 0, 0] [0, 0, 0, 0]) 0).samples
        = [] ++ [argmax (logitsOf
            ⟨[[], [], [], []], [0, 0, 0, 0], [[], [], [], []], [0, 0, 0, 0], [3], [[5]]⟩
            (initState heap0 [0, 0, 0, 0] [0, 0, 0, 0]))] :=
  ⟨Nat.le_refl 0,
    selfFeed_argmax_on_falsy_temperature P0 _ ⟨[], 38⟩ (some 0) rng0 _ 0 (Nat.le_refl 0)
      (Or.inr rfl)⟩

/-- C9: no validation of the supplied temperature happens: every nonzero
temperature, negative values included, takes the stochastic branch, where
the logits are divided elementwise by the temperature before the
multinomial draw. -/
theorem sampleNext_stochastic_on_nonzero_temperature (P : DlPrims) (t : ℚ) (logits : Vec)
    (r : ℕ) (ht : t ≠ 0) :
    sampleNext P (some t) logits r = P.multinomial (logits.map (fun x => x / t)) r := by
  simp [sampleNext, ht]

/-- C9 witness: the negative temperature -1 reaches the multinomial draw
over the divided logits. -/
theorem sampleNext_stochastic_on_nonzero_temperature_witness :
    ((-1 : ℚ) ≠ 0) ∧
      sampleNext P0 (some (-1)) [3, 7] 1 = P0.multinomial ([3, 7].map (fun x => x / (-1))) 1 :=
  ⟨by norm_num, sampleNext_stochastic_on_nonzero_temperature P0 (-1) [3, 7] 1 (by norm_num)⟩

/-- C4: with the temperature unset or 0, a fixed weight heap and a fixed
melody, the result sequence does not depend on the random source at all —
any two calls agree. -/
theorem continueSequence_rng_independent (P : DlPrims) (heap : Heap) (m : Model)
    (seq : NoteSequence) (steps : ℕ) (temperature : Option ℚ) (rng rng2 : ℕ → ℕ)
    (htemp : temperature = none ∨ temperature = some 0) :
    (continueSequence P heap m seq steps temperature rng).1
      = (continueSequence P heap m seq steps temperature rng2).1 := by
  have hg : ∀ (W : Weights) (inputs : Tensor2),
      genStep P W inputs temperature rng = genStep P W inputs temperature rng2 := by
    intro W inputs
    funext st i
    by_cases hi : i < inputs.rows.length
    · simp [genStep, hi]
    · simp [genStep, hi, sampleNext_falsy P temperature _ _ htemp]
  unfold continueSequence
  cases hc : modelConverter seq with
  | error e => rfl
  | ok inputs =>
      cases hp : readParams heap m with
      | error e => rfl
      | ok W => simp only [hg]

/-- C4 witness: the arg-max path yields the same samples under two
different random sources. -/
theorem continueSequence_rng_independent_witness :
    ((none : Option ℚ) = none ∨ (none : Option ℚ) = some 0) ∧
      (continueSequence P0 heap0 m0 seq1 2 none rng0).1
        = (continueSequence P0 heap0 m0 seq1 2 none rng1).1 :=
  ⟨Or.inl rfl,
    continueSequence_rng_independent P0 heap0 m0 seq1 2 none rng0 rng1 (Or.inl rfl)⟩

/-- C5: a melody that is not quantized to the converter step grid makes
`continueSequence` fail with `ConversionError` before the generation loop
starts: the call returns the error with the heap untouched, so no
generation work happens. -/
theorem continueSequence_unquantized_error (P : DlPrims) (heap : Heap) (m : Model)
    (seq : NoteSequence) (steps : ℕ) (temperature : Option ℚ) (rng : ℕ → ℕ)
    (hq : seq.quantized = false) :
    continueSequence P heap m seq steps temperature rng
      = (Except.error MError.conversionError, heap) := by
  simp [continueSequence, modelConverter, MelodyConverter.toTensor, hq]

/-- C5 witness: the unquantized melody fails with `ConversionError`. -/
theorem continueSequence_unquantized_error_witness :
    seqBad.quantized = false ∧
      continueSequence P0 heap0 m0 seqBad 3 none rng0
        = (Except.error MError.conversionError, heap0) :=
  ⟨rfl, continueSequence_unquantized_error P0 heap0 m0 seqBad 3 none rng0 rfl⟩

/-- C6: the claim fails on the code.  Checkpoint loading never assigns
`rawVars`, so after construction and checkpoint loading `dispose()` hits
`Object.keys(undefined)` and throws a `TypeError` without releasing any
parameter tensor, and a later `continueSequence` call silently returns a
result instead of failing with `UseAfterDisposeError`. -/
theorem dispose_rawVars_code_bug :
    m0.rawVars = none ∧
    dispose heap0 m0 = Except.error JsError.typeError ∧
    (continueSequence P0 heap0 m0 seq0 1 none rng0).1 = Except.ok [0] :=
  ⟨rfl, rfl, rfl⟩

/-- C10: the converter used by `continueSequence` is always built with the
constant note range 48-84 (plus the melody step count), so every encoding
has the fixed vocabulary width `84 - 48 + 2`, whatever the melody
contains; the call signature offers no way to change the bounds. -/
theorem converter_fixed_note_range (seq : NoteSequence) :
    DEFAULT_MIN_NOTE = 48 ∧ DEFAULT_MAX_NOTE = 84 ∧
    modelConverter seq = MelodyConverter.toTensor seq.totalQuantizedSteps 48 84 seq ∧
    ∀ t, modelConverter seq = Except.ok t → t.cols = 84 - 48 + 2 := by
  refine ⟨rfl, rfl, rfl, ?_⟩
  intro t ht
  cases hq : seq.quantized with
  | false => simp [modelConverter, MelodyConverter.toTensor, hq] at ht
  | true =>
      simp only [modelConverter, MelodyConverter.toTensor, hq, if_true, Except.ok.injEq] at ht
      rw [← ht]
      rfl

/-- C10 witness: a melody with pitches outside the range still encodes at
width 38. -/
theorem converter_fixed_note_range_witness :
    modelConverter seq1 = Except.ok ⟨[oneHot 2 38], 38⟩ ∧
      (Tensor2.cols ⟨[oneHot 2 38], 38⟩) = 84 - 48 + 2 :=
  ⟨rfl, (converter_fixed_note_range seq1).2.2.2 ⟨[oneHot 2 38], 38⟩ rfl⟩

theorem basicLSTMCell_eq_spec (P : DlPrims) (fb : ℚ) (kernel : Mat) (bias : Vec)
    (x c h : Vec) (hk : kernel.length = bias.length) :
    basicLSTMCell P fb kernel bias x c h = specLstmLayer P fb kernel bias x c h := by
  have hg : (addVec (matMulRow (x ++ h) kernel) bias).length = bias.length := by
    simp [addVec, List.length_zipWith, matMulRow, hk]
  simp only [basicLSTMCell, specLstmLayer]
  rw [hg]

/-- C2: one time step of the stack applies the classic gated LSTM
transition with forget bias 1.0 — gates from `concat(x, h) · W + b` split
as `(i, j, f, o)`, `newC = c ⊙ sigmoid(f + 1) + sigmoid(i) ⊙ tanh(j)`,
`newH = tanh(newC) ⊙ sigmoid(o)` — over exactly two layers, where layer 1
consumes the external input and its own pair and layer 2 consumes the
fresh layer-1 hidden state and its own pair, and both updated pairs are
returned (stated against `specTwoLayerStep`, which transcribes §4.2 of
the specification). -/
theorem lstm_stack_matches_spec (P : DlPrims) (W : Weights) (x c1 h1 c2 h2 : Vec)
    (hk1 : W.lstmKernel1.length = W.lstmBias1.length)
    (hk2 : W.lstmKernel2.length = W.lstmBias2.length) :
    multiRNNCell [lstm1 P W, lstm2 P W] x [c1, c2] [h1, h2]
      = ([(specTwoLayerStep P W x c1 h1 c2 h2).1.1, (specTwoLayerStep P W x c1 h1 c2 h2).2.1],
         [(specTwoLayerStep P W x c1 h1 c2 h2).1.2, (specTwoLayerStep P W x c1 h1 c2 h2).2.2]) := by
  simp only [multiRNNCell, lstm1, lstm2, specTwoLayerStep, List.headD, List.tail_cons]
  rw [basicLSTMCell_eq_spec P 1 W.lstmKernel1 W.lstmBias1 x c1 h1 hk1,
    basicLSTMCell_eq_spec P 1 W.lstmKernel2 W.lstmBias2 _ c2 h2 hk2]

/-- C2 witness: a concrete consistent weight set agrees with the
specification transition on concrete inputs. -/
theorem lstm_stack_matches_spec_witness :
    (W1.lstmKernel1.length = W1.lstmBias1.length) ∧
    (W1.lstmKernel2.length = W1.lstmBias2.length) ∧
    multiRNNCell [lstm1 P0 W1, lstm2 P0 W1] [1, 2] [[3], [4]] [[5], [6]]
      = ([(specTwoLayerStep P0 W1 [1, 2] [3] [5] [4] [6]).1.1,
          (specTwoLayerStep P0 W1 [1, 2] [3] [5] [4] [6]).2.1],
         [(specTwoLayerStep P0 W1 [1, 2] [3] [5] [4] [6]).1.2,
          (specTwoLayerStep P0 W1 [1, 2] [3] [5] [4] [6]).2.2]) :=
  ⟨rfl, rfl, lstm_stack_matches_spec P0 W1 [1, 2] [3] [5] [4] [6] rfl rfl⟩

theorem foldl_samples_bound (P : DlPrims) (W : Weights) (inputs : Tensor2)
    (temperature : Option ℚ) (rng : ℕ → ℕ) (n : ℕ)
    (hmult : ∀ (lg : Vec) (d : ℕ), 0 < lg.length → P.multinomial lg d < lg.length)
    (hfcw : W.lstmFcW.length = n) (hfcb : W.lstmFcB.length = n) (hn : 0 < n)
    (l : List ℕ) :
    ∀ st : LoopState, (∀ x ∈ st.samples, x < n) →
      ∀ x ∈ (l.foldl (genStep P W inputs temperature rng) st).samples, x < n := by
  induction l with
  | nil =>
      intro st hst
      simpa using hst
  | cons i l ih =>
      intro st hst
      simp only [List.foldl_cons]
      apply ih
      by_cases hi : i < inputs.rows.length
      · rw [genStep_samples_teacher P W inputs temperature rng st i hi]
        exact hst
      · rw [genStep_samples_self P W inputs temperature rng st i (Nat.not_lt.mp hi)]
        intro x hx
        rcases List.mem_append.mp hx with hx | hx
        · exact hst x hx
        · rw [List.mem_singleton.mp hx]
          have hlen : (logitsOf W st).length = n := by
            rw [logitsOf_length, hfcw, hfcb]
            exact Nat.min_self n
          exact sampleNext_lt P temperature _ _ n hmult hlen hn

/-- C7: under the shape invariant that the projection weight and bias have
the encoded vocabulary width, every returned sample is a valid note index
below `inputs.cols`, the width of the encoded melody tensor — both
selection branches range over exactly that many logits, so each index is
re-encodable as a one-hot row of that width. -/
theorem continueSequence_samples_in_range (P : DlPrims) (heap : Heap) (m : Model)
    (seq : NoteSequence) (steps : ℕ) (temperature : Option ℚ) (rng : ℕ → ℕ)
    (inputs : Tensor2) (W : Weights) (l : List ℕ)
    (hmult : ∀ (lg : Vec) (d : ℕ), 0 < lg.length → P.multinomial lg d < lg.length)
    (hconv : modelConverter seq = Except.ok inputs)
    (hparams : readParams heap m = Except.ok W)
    (hfcw : W.lstmFcW.length = inputs.cols) (hfcb : W.lstmFcB.length = inputs.cols)
    (h : (continueSequence P heap m seq steps temperature rng).1 = Except.ok l) :
    ∀ x ∈ l, x < inputs.cols := by
  have hcols : 0 < inputs.cols := by
    cases hq : seq.quantized with
    | false => simp [modelConverter, MelodyConverter.toTensor, hq] at hconv
    | true =>
        simp only [modelConverter, MelodyConverter.toTensor, hq, if_true,
          Except.ok.injEq] at hconv
        rw [← hconv]
        show 0 < DEFAULT_MAX_NOTE - DEFAULT_MIN_NOTE + 2
        decide
  unfold continueSequence at h
  rw [hconv, hparams] at h
  simp only [Except.ok.injEq] at h
  rw [← h]
  exact foldl_samples_bound P W inputs temperature rng inputs.cols hmult hfcw hfcb hcols _ _
    (by simp [initState])

/-- C7 witness: with 38-wide projection parameters and temperature 1, the
single sample of a one-step continuation is below the vocabulary width
38. -/
theorem continueSequence_samples_in_range_witness :
    ((continueSequence P0 heap38 m0 seq0 1 (some 1) rng0).1 = Except.ok [0]) ∧
      ∀ x ∈ ([0] : List ℕ), x < Tensor2.cols ⟨[], 38⟩ :=
  ⟨rfl,
    continueSequence_samples_in_range P0 heap38 m0 seq0 1 (some 1) rng0 ⟨[], 38⟩ W38 [0]
      (fun _ d hlen => Nat.mod_lt d hlen) rfl rfl rfl rfl rfl⟩

/-- C8: a `continueSequence` call only appends freshly allocated tensors
to the heap: every pre-existing heap cell — in particular every parameter
tensor, read-only in the loop — holds the same value afterwards, on the
success path as well as on every failure path. -/
theorem continueSequence_preserves_heap (P : DlPrims) (heap : Heap) (m : Model)
    (seq : NoteSequence) (steps : ℕ) (temperature : Option ℚ) (rng : ℕ → ℕ) (k : ℕ)
    (hk : k < heap.length) :
    ((continueSequence P heap m seq steps temperature rng).2).getD k none
      = heap.getD k none := by
  unfold continueSequence
  cases hc : modelConverter seq with
  | error e => rfl
  | ok inputs =>
      cases hp : readParams heap m with
      | error e => rfl
      | ok W =>
          dsimp only
          obtain ⟨xs, hxs⟩ := foldl_heap_frame P W inputs temperature rng
            (List.range (inputs.rows.length + steps)) (initState heap W.lstmBias1 W.lstmBias2)
          have hinit : (initState heap W.lstmBias1 W.lstmBias2).heap = heap := rfl
          rw [hinit] at hxs
          rw [hxs]
          exact List.getD_append heap xs none k hk

/-- C8 witness: the first parameter tensor of the concrete heap is
untouched by a two-step continuation. -/
theorem continueSequence_preserves_heap_witness :
    0 < heap0.length ∧
      ((continueSequence P0 heap0 m0 seq1 2 none rng0).2).getD 0 none = heap0.getD 0 none :=
  ⟨by decide, continueSequence_preserves_heap P0 heap0 m0 seq1 2 none rng0 0 (by decide)⟩

end MusicRnn
